import Mathlib

/-!
Shallow embedding of the `mindb` example WASM stored procedures
(`src/examples/wasm/business_rules.rs` and `src/examples/wasm/discount.rs`)
and verification of the specification claims about them.

Modelling conventions:
* Rust `f64` values are modelled as exact rationals (`ℚ`); all the constants in
  the source (`0.05`, `0.25`, `1.5`, ...) are short decimal literals, and the
  claims are stated in terms of exact decimal arithmetic, so `ℚ` is the
  semantic domain of the spec formulas.
* Rust `i32`/`i64` values are modelled as `ℤ`.  Where two's-complement
  wrap-around matters (the `base_points * 2` multiplication compiled with `-O`,
  hence without overflow checks) the wrap is explicit (`wrap32`), and the
  saturating `f64 as i32` cast is modelled explicitly (`toI32Sat`).
* The `while num > 0` loop of `validate_credit_card` is embedded twice:
  `luhnGo`, a well-founded recursion (the denotation of the loop), and
  `luhnLoop`, a fuel-indexed step-bounded execution used to express that the
  loop terminates within a finite number of iterations and to evaluate the
  function on concrete inputs.  Inside the loop `num > 0`, where Rust's
  truncating `/` and `%` agree with Lean's euclidean `/` and `%` on `ℤ`.
-/

/-- `calculate_tax` from `business_rules.rs`: tiered tax-rate lookup on
`state_code` with default rate `0.08`, result `amount * tax_rate`. -/
def calculate_tax (amount : ℚ) (state_code : ℤ) : ℚ :=
  let tax_rate : ℚ :=
    if state_code = 1 then 0.05
    else if state_code = 2 then 0.07
    else if state_code = 3 then 0.10
    else if state_code = 4 then 0.06
    else if state_code = 5 then 0.08
    else 0.08
  amount * tax_rate

/-- `calculate_shipping` from `business_rules.rs`: base cost
`5.0 + weight * 0.5 + distance * 0.1`, multiplied by `1.5` when `express != 0`. -/
def calculate_shipping (weight distance : ℚ) (express : ℤ) : ℚ :=
  let base_rate : ℚ := 5.0
  let weight_rate : ℚ := 0.5
  let distance_rate : ℚ := 0.1
  let standard_cost := base_rate + (weight * weight_rate) + (distance * distance_rate)
  if express ≠ 0 then standard_cost * 1.5 else standard_cost

/-- One iteration's digit transform in `validate_credit_card`: on alternating
positions the digit is doubled and reduced by `9` when the double exceeds `9`. -/
def luhnStep (alternate : Bool) (digit : ℤ) : ℤ :=
  if alternate then
    let d := digit * 2
    if d > 9 then d - 9 else d
  else digit

/-- The `while num > 0` loop of `validate_credit_card`, as a well-founded
recursion: peels decimal digits least-significant first, applying `luhnStep`
with an alternating flag, accumulating into `sum`. -/
def luhnGo (num : ℤ) (alternate : Bool) (sum : ℤ) : ℤ :=
  if _h : num > 0 then
    luhnGo (num / 10) (!alternate) (sum + luhnStep alternate (num % 10))
  else sum
termination_by num.toNat
decreasing_by omega

/-- Fuel-bounded execution of the same loop: `none` means the loop did not
finish within `fuel` iterations. -/
def luhnLoop (fuel : ℕ) (num : ℤ) (alternate : Bool) (sum : ℤ) : Option ℤ :=
  match fuel with
  | 0 => none
  | fuel + 1 =>
    if num > 0 then luhnLoop fuel (num / 10) (!alternate) (sum + luhnStep alternate (num % 10))
    else some sum

/-- `validate_credit_card` from `business_rules.rs`: Luhn sum of the decimal
digits of `number` (starting with `alternate = false`, `sum = 0`), returning
`1` iff the sum is divisible by `10`. -/
def validate_credit_card (number : ℤ) : ℤ :=
  if luhnGo number false 0 % 10 = 0 then 1 else 0

/-- `calculate_commission` from `business_rules.rs`: tiered commission-rate
lookup with default rate `0.03`, result `sales * commission_rate`. -/
def calculate_commission (sales : ℚ) (tier : ℤ) : ℚ :=
  let commission_rate : ℚ :=
    if tier = 1 then 0.05
    else if tier = 2 then 0.08
    else if tier = 3 then 0.12
    else if tier = 4 then 0.15
    else 0.03
  sales * commission_rate

/-- `calculate_late_fee` from `business_rules.rs`: `0.0` for
`days_late <= 0`, otherwise `amount * min (days_late * 0.01) 0.25`. -/
def calculate_late_fee (days_late : ℤ) (amount : ℚ) : ℚ :=
  if days_late ≤ 0 then 0.0
  else
    let daily_rate : ℚ := 0.01
    let max_rate : ℚ := 0.25
    let fee_rate := min ((days_late : ℚ) * daily_rate) max_rate
    amount * fee_rate

/-- `calculate_discount` from `discount.rs`: tiered price multiplier,
unmodified `price` for tiers outside `1..5`. -/
def calculate_discount (price : ℚ) (tier : ℤ) : ℚ :=
  if tier = 1 then price * 0.95
  else if tier = 2 then price * 0.90
  else if tier = 3 then price * 0.85
  else if tier = 4 then price * 0.80
  else if tier = 5 then price * 0.75
  else price

/-- The `discount_rate` selection inside `calculate_bulk_discount`:
descending threshold comparison, highest qualifying threshold first. -/
def bulk_discount_rate (quantity : ℤ) : ℚ :=
  if quantity ≥ 100 then 0.20
  else if quantity ≥ 50 then 0.15
  else if quantity ≥ 10 then 0.10
  else 0.0

/-- `calculate_bulk_discount` from `discount.rs`. -/
def calculate_bulk_discount (price : ℚ) (quantity : ℤ) : ℚ :=
  price * (1.0 - bulk_discount_rate quantity)

/-- Truncation toward zero of a rational, the rounding used by Rust's
float-to-integer `as` casts. -/
def ratTrunc (q : ℚ) : ℤ := if 0 ≤ q then ⌊q⌋ else ⌈q⌉

/-- Rust's saturating `f64 as i32` cast (truncate toward zero, clamp to the
`i32` range). -/
def toI32Sat (q : ℚ) : ℤ := max (min (ratTrunc q) (2 ^ 31 - 1)) (-(2 ^ 31))

/-- Two's-complement wrap of an integer into the `i32` range, the behaviour of
`i32` arithmetic compiled with `-O` (overflow checks off). -/
def wrap32 (x : ℤ) : ℤ := (x + 2 ^ 31) % 2 ^ 32 - 2 ^ 31

/-- `calculate_loyalty_points` from `discount.rs`: `base_points` is the
saturating cast of `amount / 10.0`, doubled (with `i32` wrap-around) when
`is_premium != 0`. -/
def calculate_loyalty_points (amount : ℚ) (is_premium : ℤ) : ℤ :=
  let base_points := toI32Sat (amount / 10.0)
  if is_premium ≠ 0 then wrap32 (base_points * 2) else base_points

/-- Spec-side digit transform: double, subtracting `9` when the double
exceeds `9` (on `ℕ`). -/
def luhnDouble (d : ℕ) : ℕ := if 2 * d > 9 then 2 * d - 9 else 2 * d

/-- Spec-side: double every digit in an alternating position of a
little-endian digit list, starting with the second least-significant digit. -/
def doubleAlternate : List ℕ → List ℕ
  | [] => []
  | [d] => [d]
  | d :: e :: rest => d :: luhnDouble e :: doubleAlternate rest

/-- Spec-side Luhn checksum of `n`: the decimal digits of `n` are consumed
least-significant first, every digit in an alternating position (starting with
the second least-significant) is doubled with `9` subtracted when the double
exceeds `9`, and all transformed digits are summed. -/
def luhnChecksum (n : ℕ) : ℕ := (doubleAlternate (Nat.digits 10 n)).sum

/-- Luhn sum of an explicit little-endian digit list with an alternation
flag, the list-level counterpart of `luhnGo`. -/
def luhnListSum : List ℕ → Bool → ℤ
  | [], _ => 0
  | d :: ds, alternate => luhnStep alternate (d : ℤ) + luhnListSum ds (!alternate)

/-! ### Bridging lemmas -/

theorem luhnGo_nonpos (num : ℤ) (alternate : Bool) (sum : ℤ) (h : num ≤ 0) :
    luhnGo num alternate sum = sum := by
  rw [luhnGo]
  simp [show ¬ num > 0 by omega]

theorem luhnGo_eq_listSum (n : ℕ) :
    ∀ (alternate : Bool) (sum : ℤ),
      luhnGo (n : ℤ) alternate sum = sum + luhnListSum (Nat.digits 10 n) alternate := by
  induction n using Nat.strong_induction_on with
  | _ n ih =>
    intro alternate sum
    rcases Nat.eq_zero_or_pos n with h0 | h0
    · subst h0
      simp [luhnGo_nonpos, luhnListSum]
    · rw [Nat.digits_def' (by norm_num : (1:ℕ) < 10) h0]
      rw [luhnGo]
      have hpos : (n : ℤ) > 0 := by exact_mod_cast h0
      rw [dif_pos hpos]
      have hdiv : (n : ℤ) / 10 = ((n / 10 : ℕ) : ℤ) := by
        exact_mod_cast (Int.ofNat_ediv n 10).symm
      have hmod : (n : ℤ) % 10 = ((n % 10 : ℕ) : ℤ) := by push_cast; ring
      rw [hdiv, hmod, ih (n / 10) (Nat.div_lt_self h0 (by norm_num)) (!alternate)]
      simp [luhnListSum]
      ring

theorem luhnStep_true_eq_luhnDouble (d : ℕ) :
    luhnStep true (d : ℤ) = (luhnDouble d : ℤ) := by
  unfold luhnStep luhnDouble
  rcases le_or_lt (2 * d) 9 with h | h
  · have h9 : ¬ ((d : ℤ) * 2 > 9) := by omega
    have h9' : ¬ (2 * d > 9) := by omega
    simp [h9, h9']
    ring
  · have h9 : (d : ℤ) * 2 > 9 := by omega
    have h9' : 2 * d > 9 := h
    simp [h9, h9']
    push_cast [Nat.cast_sub (by omega : 9 ≤ 2 * d)]
    ring

theorem luhnListSum_false_eq_doubleAlternate (l : List ℕ) :
    luhnListSum l false = ((doubleAlternate l).sum : ℤ) := by
  induction l using doubleAlternate.induct with
  | case1 => simp [luhnListSum, doubleAlternate]
  | case2 d => simp [luhnListSum, doubleAlternate, luhnStep]
  | case3 d e rest ih =>
    show luhnStep false (d : ℤ) + luhnListSum (e :: rest) true = _
    rw [show luhnListSum (e :: rest) true
        = luhnStep true (e : ℤ) + luhnListSum rest false from rfl]
    rw [luhnStep_true_eq_luhnDouble, ih]
    simp [luhnStep, doubleAlternate]

theorem luhnGo_eq_checksum (n : ℕ) :
    luhnGo (n : ℤ) false 0 = (luhnChecksum n : ℤ) := by
  rw [luhnGo_eq_listSum, luhnListSum_false_eq_doubleAlternate, luhnChecksum]
  ring

theorem luhnLoop_eq_luhnGo (fuel : ℕ) :
    ∀ (num : ℤ) (alternate : Bool) (sum : ℤ), num.toNat < 10 ^ fuel →
      luhnLoop (fuel + 1) num alternate sum = some (luhnGo num alternate sum) := by
  induction fuel with
  | zero =>
    intro num alternate sum h
    have hnum : num ≤ 0 := by simp at h; omega
    rw [luhnLoop]
    rw [if_neg (by omega), luhnGo_nonpos num alternate sum hnum]
  | succ fuel ih =>
    intro num alternate sum h
    rcases le_or_lt num 0 with h0 | h0
    · rw [luhnLoop, if_neg (by omega), luhnGo_nonpos num alternate sum h0]
    · rw [luhnLoop, if_pos (by omega), luhnGo, dif_pos (by omega)]
      apply ih
      have h1 : (num / 10).toNat = num.toNat / 10 := by omega
      rw [h1]
      rw [Nat.div_lt_iff_lt_mul (by norm_num)]
      calc num.toNat < 10 ^ (fuel + 1) := h
        _ = 10 ^ fuel * 10 := by ring

/-! ### Claim theorems -/

/-- C1: for every positive `i64` input, `validate_credit_card` returns `1`
iff the Luhn checksum of the input's decimal digits (least-significant first,
alternating positions starting with the second least-significant doubled, with
`9` subtracted when the double exceeds `9`) is divisible by `10`; in
particular `validate_credit_card 4539148803436467 = 1` and
`validate_credit_card 1234567812345678 = 0`. -/
theorem c1_validate_credit_card_luhn (number : ℤ) (h : 0 < number) :
    (validate_credit_card number = 1 ↔ luhnChecksum number.toNat % 10 = 0) ∧
    validate_credit_card 4539148803436467 = 1 ∧
    validate_credit_card 1234567812345678 = 0 := by
  refine ⟨?_, ?_, ?_⟩
  · have hcast : ((number.toNat : ℤ)) = number := by omega
    have key := luhnGo_eq_checksum number.toNat
    rw [hcast] at key
    unfold validate_credit_card
    rw [key]
    split_ifs with hc
    · exact iff_of_true rfl (by omega)
    · exact iff_of_false (by norm_num) (by omega)
  · have h1 := luhnLoop_eq_luhnGo 16 4539148803436467 false 0 (by decide)
    have h2 : luhnLoop 17 (4539148803436467 : ℤ) false 0 = some 80 := by decide
    rw [h1] at h2
    have h3 : luhnGo (4539148803436467 : ℤ) false 0 = 80 := Option.some_inj.mp h2
    unfold validate_credit_card
    rw [h3]
    norm_num
  · have h1 := luhnLoop_eq_luhnGo 16 1234567812345678 false 0 (by decide)
    have h2 : luhnLoop 17 (1234567812345678 : ℤ) false 0 = some 68 := by decide
    rw [h1] at h2
    have h3 : luhnGo (1234567812345678 : ℤ) false 0 = 68 := Option.some_inj.mp h2
    unfold validate_credit_card
    rw [h3]
    norm_num

/-- Witness for C1 at the classic Luhn test vector. -/
theorem c1_validate_credit_card_luhn_witness :
    (0 : ℤ) < 4539148803436467 ∧
    ((validate_credit_card 4539148803436467 = 1 ↔
        luhnChecksum (4539148803436467 : ℤ).toNat % 10 = 0) ∧
      validate_credit_card 4539148803436467 = 1 ∧
      validate_credit_card 1234567812345678 = 0) :=
  ⟨by decide, c1_validate_credit_card_luhn 4539148803436467 (by decide)⟩

/-- C5: for every input `number ≤ 0`, the digit sequence is empty, the Luhn
sum is `0`, and `validate_credit_card` returns `1` (reported valid). -/
theorem c5_validate_nonpositive (number : ℤ) (h : number ≤ 0) :
    Nat.digits 10 number.toNat = [] ∧ luhnGo number false 0 = 0 ∧
    validate_credit_card number = 1 := by
  have ht : number.toNat = 0 := by omega
  refine ⟨by rw [ht]; simp, luhnGo_nonpos _ _ _ h, ?_⟩
  unfold validate_credit_card
  rw [luhnGo_nonpos _ _ _ h]
  norm_num

/-- Witness for C5 at the documented all-zero input. -/
theorem c5_validate_nonpositive_witness :
    (0 : ℤ) ≤ 0 ∧
    (Nat.digits 10 (0 : ℤ).toNat = [] ∧ luhnGo 0 false 0 = 0 ∧
      validate_credit_card 0 = 1) :=
  ⟨by decide, c5_validate_nonpositive 0 (by decide)⟩

/-- C2: every exported procedure returns a defined numeric value on its
modelled domain and never faults: the `validate_credit_card` loop terminates
within 20 iterations for every `i64` input (the only loop in the module), and
every procedure is a total function of its arguments. -/
theorem c2_no_trap (num : ℤ) (h1 : -(2 ^ 63) ≤ num) (h2 : num < 2 ^ 63)
    (amount weight distance sales price pts_amount : ℚ)
    (state_code express tier days_late quantity is_premium : ℤ) :
    luhnLoop 20 num false 0 = some (luhnGo num false 0) ∧
    (∃ v, validate_credit_card num = v) ∧
    (∃ v, calculate_tax amount state_code = v) ∧
    (∃ v, calculate_shipping weight distance express = v) ∧
    (∃ v, calculate_commission sales tier = v) ∧
    (∃ v, calculate_late_fee days_late amount = v) ∧
    (∃ v, calculate_discount price tier = v) ∧
    (∃ v, calculate_bulk_discount price quantity = v) ∧
    (∃ v, calculate_loyalty_points pts_amount is_premium = v) := by
  refine ⟨?_, ⟨_, rfl⟩, ⟨_, rfl⟩, ⟨_, rfl⟩, ⟨_, rfl⟩, ⟨_, rfl⟩, ⟨_, rfl⟩, ⟨_, rfl⟩, ⟨_, rfl⟩⟩
  show luhnLoop (19 + 1) num false 0 = some (luhnGo num false 0)
  apply luhnLoop_eq_luhnGo
  have hb : num.toNat < 2 ^ 63 := by omega
  calc num.toNat < 2 ^ 63 := hb
    _ < 10 ^ 19 := by norm_num

/-- Witness for C2 at `num = -(2 ^ 63)` (the least `i64`) and zero arguments
elsewhere. -/
theorem c2_no_trap_witness :
    (-(2 ^ 63) : ℤ) ≤ -(2 ^ 63) ∧ (-(2 ^ 63) : ℤ) < 2 ^ 63 ∧
    (luhnLoop 20 (-(2 ^ 63)) false 0 = some (luhnGo (-(2 ^ 63)) false 0) ∧
      (∃ v, validate_credit_card (-(2 ^ 63)) = v) ∧
      (∃ v, calculate_tax 0 0 = v) ∧
      (∃ v, calculate_shipping 0 0 0 = v) ∧
      (∃ v, calculate_commission 0 0 = v) ∧
      (∃ v, calculate_late_fee 0 0 = v) ∧
      (∃ v, calculate_discount 0 0 = v) ∧
      (∃ v, calculate_bulk_discount 0 0 = v) ∧
      (∃ v, calculate_loyalty_points 0 0 = v)) :=
  ⟨by decide, by decide,
    c2_no_trap (-(2 ^ 63)) (by decide) (by decide) 0 0 0 0 0 0 0 0 0 0 0 0⟩

/-- C3: `calculate_late_fee` returns exactly `0` for every non-positive
`days_late`; whenever `days_late * 0.01` meets or exceeds the `0.25` ceiling
the cap binds and the result is exactly `amount * 0.25`; in particular
`calculate_late_fee 40 100 = 25`. -/
theorem c3_late_fee_cap (days_zero days_capped : ℤ) (amount1 amount2 : ℚ)
    (h1 : days_zero ≤ 0) (h2 : (0.25 : ℚ) ≤ (days_capped : ℚ) * 0.01) :
    calculate_late_fee days_zero amount1 = 0 ∧
    calculate_late_fee days_capped amount2 = amount2 * 0.25 ∧
    calculate_late_fee 40 100 = 25 := by
  refine ⟨?_, ?_, ?_⟩
  · simp only [calculate_late_fee, if_pos h1]
    norm_num
  · have hpos : ¬ days_capped ≤ 0 := by
      intro hc
      have hc' : (days_capped : ℚ) ≤ 0 := by exact_mod_cast hc
      nlinarith
    simp only [calculate_late_fee, if_neg hpos]
    rw [min_eq_right h2]
  · simp only [calculate_late_fee]
    norm_num [min_def]

/-- Witness for C3 at `days_zero = -5`, `days_capped = 40`, amounts `100`. -/
theorem c3_late_fee_cap_witness :
    (-5 : ℤ) ≤ 0 ∧ (0.25 : ℚ) ≤ ((40 : ℤ) : ℚ) * 0.01 ∧
    (calculate_late_fee (-5) 100 = 0 ∧ calculate_late_fee 40 100 = 100 * 0.25 ∧
      calculate_late_fee 40 100 = 25) :=
  ⟨by decide, by norm_num,
    c3_late_fee_cap (-5) 40 100 100 (by decide) (by norm_num)⟩

/-- C4: every code outside a procedure's lookup table takes the documented
default branch: `calculate_tax` uses rate `0.08` outside `{1,2,3,4,5}`,
`calculate_commission` uses rate `0.03` outside `{1,2,3,4}`, and
`calculate_discount` returns the price unchanged outside `{1,2,3,4,5}`. -/
theorem c4_default_rates (amount sales price : ℚ) (state_code tier_c tier_d : ℤ)
    (hs : state_code ∉ ([1, 2, 3, 4, 5] : List ℤ))
    (ht : tier_c ∉ ([1, 2, 3, 4] : List ℤ))
    (hd : tier_d ∉ ([1, 2, 3, 4, 5] : List ℤ)) :
    calculate_tax amount state_code = amount * 0.08 ∧
    calculate_commission sales tier_c = sales * 0.03 ∧
    calculate_discount price tier_d = price := by
  have hs' : state_code ≠ 1 ∧ state_code ≠ 2 ∧ state_code ≠ 3 ∧ state_code ≠ 4 ∧
      state_code ≠ 5 := by simpa using hs
  have ht' : tier_c ≠ 1 ∧ tier_c ≠ 2 ∧ tier_c ≠ 3 ∧ tier_c ≠ 4 := by simpa using ht
  have hd' : tier_d ≠ 1 ∧ tier_d ≠ 2 ∧ tier_d ≠ 3 ∧ tier_d ≠ 4 ∧ tier_d ≠ 5 := by
    simpa using hd
  refine ⟨?_, ?_, ?_⟩
  · simp [calculate_tax, hs'.1, hs'.2.1, hs'.2.2.1, hs'.2.2.2.1, hs'.2.2.2.2]
  · simp [calculate_commission, ht'.1, ht'.2.1, ht'.2.2.1, ht'.2.2.2]
  · simp [calculate_discount, hd'.1, hd'.2.1, hd'.2.2.1, hd'.2.2.2.1, hd'.2.2.2.2]

/-- Witness for C4 at codes `0`, `7` and `-3`, outside every table. -/
theorem c4_default_rates_witness :
    (0 : ℤ) ∉ ([1, 2, 3, 4, 5] : List ℤ) ∧ (7 : ℤ) ∉ ([1, 2, 3, 4] : List ℤ) ∧
    (-3 : ℤ) ∉ ([1, 2, 3, 4, 5] : List ℤ) ∧
    (calculate_tax 100 0 = 100 * 0.08 ∧ calculate_commission 100 7 = 100 * 0.03 ∧
      calculate_discount 100 (-3) = 100) :=
  ⟨by decide, by decide, by decide,
    c4_default_rates 100 100 100 0 7 (-3) (by decide) (by decide) (by decide)⟩

/-- C6: `calculate_bulk_discount` is monotone in the banding variable: for
`q1 ≤ q2` the selected rate does not decrease, and for a non-negative price
the discounted total does not increase. -/
theorem c6_bulk_discount_monotone (price : ℚ) (q1 q2 : ℤ) (hp : 0 ≤ price) (hq : q1 ≤ q2) :
    bulk_discount_rate q1 ≤ bulk_discount_rate q2 ∧
    calculate_bulk_discount price q2 ≤ calculate_bulk_discount price q1 := by
  have hrate : bulk_discount_rate q1 ≤ bulk_discount_rate q2 := by
    unfold bulk_discount_rate
    split_ifs <;> first | (exfalso; omega) | norm_num
  refine ⟨hrate, ?_⟩
  unfold calculate_bulk_discount
  have hfac : (1.0 : ℚ) - bulk_discount_rate q2 ≤ 1.0 - bulk_discount_rate q1 := by
    linarith
  exact mul_le_mul_of_nonneg_left hfac hp

/-- Witness for C6 at `price = 3`, `q1 = 9`, `q2 = 100`. -/
theorem c6_bulk_discount_monotone_witness :
    (0 : ℚ) ≤ 3 ∧ (9 : ℤ) ≤ 100 ∧
    (bulk_discount_rate 9 ≤ bulk_discount_rate 100 ∧
      calculate_bulk_discount 3 100 ≤ calculate_bulk_discount 3 9) :=
  ⟨by norm_num, by decide, c6_bulk_discount_monotone 3 9 100 (by norm_num) (by decide)⟩

/-- C7: `calculate_bulk_discount` selects its band by descending threshold
comparison (`0.20` for quantity `≥ 100`, else `0.15` for `≥ 50`, else `0.10`
for `≥ 10`, else rate `0.0`) and returns `price * (1 - rate)`; in particular
quantity `75` selects rate `0.15`, giving `price * 0.85`. -/
theorem c7_bulk_discount_bands (price : ℚ) (qa qb qc qd : ℤ)
    (ha : 100 ≤ qa) (hb1 : 50 ≤ qb) (hb2 : qb < 100) (hc1 : 10 ≤ qc) (hc2 : qc < 50)
    (hd : qd < 10) :
    calculate_bulk_discount price qa = price * (1 - 0.20) ∧
    calculate_bulk_discount price qb = price * (1 - 0.15) ∧
    calculate_bulk_discount price qc = price * (1 - 0.10) ∧
    calculate_bulk_discount price qd = price * (1 - 0.0) ∧
    calculate_bulk_discount price 75 = price * 0.85 := by
  unfold calculate_bulk_discount bulk_discount_rate
  refine ⟨?_, ?_, ?_, ?_, ?_⟩ <;> split_ifs <;> first | (exfalso; omega) | norm_num

/-- Witness for C7 at `price = 2` and quantities `100`, `75`, `10`, `0`. -/
theorem c7_bulk_discount_bands_witness :
    (100 : ℤ) ≤ 100 ∧ (50 : ℤ) ≤ 75 ∧ (75 : ℤ) < 100 ∧ (10 : ℤ) ≤ 10 ∧
    (10 : ℤ) < 50 ∧ (0 : ℤ) < 10 ∧
    (calculate_bulk_discount 2 100 = 2 * (1 - 0.20) ∧
      calculate_bulk_discount 2 75 = 2 * (1 - 0.15) ∧
      calculate_bulk_discount 2 10 = 2 * (1 - 0.10) ∧
      calculate_bulk_discount 2 0 = 2 * (1 - 0.0) ∧
      calculate_bulk_discount 2 75 = 2 * 0.85) :=
  ⟨by decide, by decide, by decide, by decide, by decide, by decide,
    c7_bulk_discount_bands 2 100 75 10 0 (by decide) (by decide) (by decide)
      (by decide) (by decide) (by decide)⟩

/-- C8: `calculate_shipping` computes the base cost
`5.0 + weight * 0.5 + distance * 0.1` and multiplies it by `1.5` exactly when
`express` is nonzero, returning the unmodified base cost when `express = 0`. -/
theorem c8_shipping_formula (weight distance : ℚ) (express : ℤ) (he : express ≠ 0) :
    calculate_shipping weight distance express
        = (5.0 + weight * 0.5 + distance * 0.1) * 1.5 ∧
    calculate_shipping weight distance 0 = 5.0 + weight * 0.5 + distance * 0.1 := by
  constructor
  · simp only [calculate_shipping, if_pos he]
  · simp only [calculate_shipping]
    rw [if_neg (by norm_num : ¬ (0 : ℤ) ≠ 0)]

/-- Witness for C8 at `weight = 2`, `distance = 30`, `express = 1`. -/
theorem c8_shipping_formula_witness :
    (1 : ℤ) ≠ 0 ∧
    (calculate_shipping 2 30 1 = (5.0 + 2 * 0.5 + 30 * 0.1) * 1.5 ∧
      calculate_shipping 2 30 0 = 5.0 + 2 * 0.5 + 30 * 0.1) :=
  ⟨by decide, c8_shipping_formula 2 30 1 (by decide)⟩

/-- C9: every exported procedure is a pure function of its arguments: two
invocations with identical argument values yield identical outputs (in this
embedding each procedure is a mathematical function, with no hidden state). -/
theorem c9_procedures_pure (amount weight distance sales price pts_amount : ℚ)
    (state_code express tier days_late quantity is_premium number : ℤ) :
    calculate_tax amount state_code = calculate_tax amount state_code ∧
    calculate_shipping weight distance express = calculate_shipping weight distance express ∧
    validate_credit_card number = validate_credit_card number ∧
    calculate_commission sales tier = calculate_commission sales tier ∧
    calculate_late_fee days_late amount = calculate_late_fee days_late amount ∧
    calculate_discount price tier = calculate_discount price tier ∧
    calculate_bulk_discount price quantity = calculate_bulk_discount price quantity ∧
    calculate_loyalty_points pts_amount is_premium
        = calculate_loyalty_points pts_amount is_premium :=
  ⟨rfl, rfl, rfl, rfl, rfl, rfl, rfl, rfl⟩

/-- C10: for every nonzero `is_premium` flag, `calculate_loyalty_points`
returns exactly the 32-bit wrap of twice the non-premium result, whose value
is the saturating `i32` cast of `amount / 10`. -/
theorem c10_loyalty_premium_double (amount : ℚ) (is_premium : ℤ) (hp : is_premium ≠ 0) :
    calculate_loyalty_points amount is_premium
        = wrap32 (2 * calculate_loyalty_points amount 0) ∧
    calculate_loyalty_points amount 0 = toI32Sat (amount / 10) := by
  have hten : (10.0 : ℚ) = 10 := by norm_num
  have hbase : calculate_loyalty_points amount 0 = toI32Sat (amount / 10) := by
    simp only [calculate_loyalty_points, hten]
    rw [if_neg (by norm_num : ¬ (0 : ℤ) ≠ 0)]
  refine ⟨?_, hbase⟩
  rw [hbase]
  simp only [calculate_loyalty_points, hten, if_pos hp]
  rw [mul_comm]

/-- Witness for C10 at `amount = 100`, `is_premium = 1`. -/
theorem c10_loyalty_premium_double_witness :
    (1 : ℤ) ≠ 0 ∧
    (calculate_loyalty_points 100 1 = wrap32 (2 * calculate_loyalty_points 100 0) ∧
      calculate_loyalty_points 100 0 = toI32Sat (100 / 10)) :=
  ⟨by decide, c10_loyalty_premium_double 100 1 (by decide)⟩
